import Mathlib

/-
Shallow embedding of the batch orchestration engine of the
product-description-generator repository.

Source files embedded:
  * src/src/generator.js        : generateDescription, callOpenAI, the p-retry
                                  wrapper as configured there, image resolution;
  * src/unnamed/part_000 (index): MODEL_PRICING, loadCsv, processCSV with its
                                  resume index, skip policy, per-row error
                                  handling, token accounting and cost report;
  * src/unnamed/part_000 (tail) : productDescriptionPrompt.

External effects are passed in as explicit oracles: the OpenAI endpoint is a
function from attempt number and message list to a response or an error
message; the filesystem is a pair of functions for existence and byte reads;
the CSV layer is a function from path to optional parse result.  Stateful
concurrency (the p-limit pool at limit 2) is embedded as a small-step
transition relation on scheduler states.  Numeric cost arithmetic is embedded
exactly over the rationals.
-/

namespace PDGen

/-
A CSV row.  The code reads the fields Handle, Title, Vendor,
Product Category, Type, Tags, Image Src, and reads/writes
Product Description; remaining columns ride along unchanged in the
object spread.  A missing field and an empty-string field behave
identically at every use site (JS truthiness), so both are embedded
as the empty string.
-/
structure Row where
  handle : String
  title : String
  vendor : String
  category : String
  ptype : String
  tags : String
  imageSrc : String
  desc : String
  extra : List (String × String)
deriving DecidableEq, Repr

/-- A row with the given Handle and every other field empty. -/
def mkRow (h : String) : Row :=
  ⟨h, "", "", "", "", "", "", "", []⟩

/-- The object spread at part_000 lines 84-87 and 91-94:
all fields of the row are kept and Product Description is replaced. -/
def setDesc (r : Row) (d : String) : Row :=
  { r with desc := d }

/-- The value returned by generateDescription on success:
trimmed text plus the usage counters read at part_000 lines 80-81. -/
structure GenResult where
  description : String
  prompt_tokens : Nat
  completion_tokens : Nat
deriving DecidableEq, Repr

/-- The fields of the OpenAI chat completion consumed by callOpenAI:
choices[0].message.content and the two usage counters. -/
structure APIResponse where
  content : String
  prompt_tokens : Nat
  completion_tokens : Nat
deriving DecidableEq, Repr

/-
part_000 lines 45-47: `new Map(existingRows.map(row => [row["Handle"], row]))`.
A JS Map built from an entry list keeps, for each key, the entry inserted
last; the fold below inserts in list order with later entries overwriting
earlier ones.
-/
def buildIndex (rows : List Row) : String → Option Row :=
  rows.foldl (fun m r => fun h => if h = r.handle then some r else m h)
    (fun _ => none)

/-- part_000 line 68: `existingMap.has(h) && existingMap.get(h)["Product Description"]`.
A string field is truthy exactly when it is non-empty. -/
def isDone (idx : String → Option Row) (h : String) : Bool :=
  match idx h with
  | some e => e.desc != ""
  | none => false

/-- The description written for a settled generation outcome:
the generated text on success (line 86), `"ERROR: " + err.message`
on failure (line 93). -/
def outDesc (res : Except String GenResult) : String :=
  match res with
  | Except.ok g => g.description
  | Except.error m => "ERROR: " ++ m

/-- Accumulated effect of one unit of work or of a whole run: rows written to
the output stream, token totals, and the number of generateDescription calls. -/
structure Agg where
  written : List Row
  promptTokens : Nat
  completionTokens : Nat
  genCalls : Nat
deriving DecidableEq, Repr

/-- One unit of work of the scheduler, part_000 lines 66-96: skip when the
resume index marks the row done; otherwise call the generation client and
write either the augmented row or the ERROR row.  `gen` is the generation
client as seen from processCSV. -/
def processRow (gen : Row → Except String GenResult)
    (idx : String → Option Row) (r : Row) : Agg :=
  if isDone idx r.handle then ⟨[], 0, 0, 0⟩
  else
    match gen r with
    | Except.ok g => ⟨[setDesc r g.description], g.prompt_tokens, g.completion_tokens, 1⟩
    | Except.error m => ⟨[setDesc r ("ERROR: " ++ m)], 0, 0, 1⟩

/-- Sequential accumulation of the units over the input rows (lines 65-100).
Units race under p-limit in the source, but every unit reads only the
immutable resume index and appends to the shared sink and counters, so the
multiset of written rows, the totals and the call count are
schedule-independent; the fold fixes submission order. -/
def runNew (gen : Row → Except String GenResult)
    (idx : String → Option Row) : List Row → Agg
  | [] => ⟨[], 0, 0, 0⟩
  | r :: rs =>
    let u := processRow gen idx r
    let rest := runNew gen idx rs
    ⟨u.written ++ rest.written,
     u.promptTokens + rest.promptTokens,
     u.completionTokens + rest.completionTokens,
     u.genCalls + rest.genCalls⟩

/-- part_000 lines 40-102: load both datasets (here passed as row lists),
build the resume index, re-emit every existing row to the output stream
(lines 54-56), then run the scheduler over the input rows. -/
def processCSV (gen : Row → Except String GenResult)
    (inputRows existingRows : List Row) : Agg :=
  let existingMap := buildIndex existingRows
  let p := runNew gen existingMap inputRows
  ⟨existingRows ++ p.written, p.promptTokens, p.completionTokens, p.genCalls⟩

/-- part_000 lines 8-10: dollars per 1M tokens, only gpt-4o-mini is present;
a lookup of any other model fails (the run dies on the property access). -/
def MODEL_PRICING (m : String) : Option (ℚ × ℚ) :=
  if m = "gpt-4o-mini" then some (0.150, 0.600) else none

/-- part_000 lines 105-107: inputCost, outputCost and their sum, embedded
exactly over the rationals. -/
def reportCost (model : String) (promptTotal completionTotal : Nat) : Option ℚ :=
  match MODEL_PRICING model with
  | some pr =>
    some ((promptTotal : ℚ) / 1000000 * pr.1 + (completionTotal : ℚ) / 1000000 * pr.2)
  | none => none

/-- part_000 lines 17-27.  `fs` is the CSV layer oracle: `none` means the
path does not exist, `some (Except.error e)` a stream/parse error, and
`some (Except.ok rows)` the ordered parsed rows. -/
def loadCsv (fs : String → Option (Except String (List Row)))
    (file : String) : Except String (List Row) :=
  match fs file with
  | none => Except.ok []
  | some r => r

/-- The retry loop of the p-retry library as configured at generator.js
lines 75-84: `n` is the number of retries still allowed after the current
attempt, `k` the current attempt number.  Returns the result together with
the number of invocations of the wrapped operation. -/
def pRetryGo (op : Nat → Except String GenResult) :
    Nat → Nat → Except String GenResult × Nat
  | 0, k => (op k, k)
  | n + 1, k =>
    match op k with
    | Except.ok g => (Except.ok g, k)
    | Except.error _ => pRetryGo op n (k + 1)

/-- p-retry: `retries` extra attempts after the first, so at most
`retries + 1` invocations; the error of the final attempt is the one
rejected to the caller. -/
def pRetry (op : Nat → Except String GenResult) (retries : Nat) :
    Except String GenResult × Nat :=
  pRetryGo op retries 1

/-- One element of the content array of the single user message:
the text prompt or an image_url part (generator.js lines 48-72). -/
inductive ContentPart where
  | text (t : String)
  | image_url (url : String)
deriving DecidableEq, Repr

/-- JS String.prototype.startsWith, embedded executably over the character
list of the string. -/
def jsStartsWith (s p : String) : Bool :=
  s.toList.take p.toList.length == p.toList

/-- The base64 alphabet. -/
def base64Table : List Char :=
  "ABCDEFGHIJKLMNOPQRSTUVWXYZabcdefghijklmnopqrstuvwxyz0123456789+/".toList

/-- Digit lookup into the base64 alphabet. -/
def b64Char (n : Nat) : Char :=
  base64Table.getD n 'A'

/-- `Buffer.toString("base64")` over a byte list (generator.js line 63). -/
def base64Encode : List Nat → String
  | [] => ""
  | [b1] =>
    String.mk [b64Char (b1 / 4 % 64), b64Char (b1 % 4 * 16)] ++ "=="
  | [b1, b2] =>
    String.mk [b64Char (b1 / 4 % 64), b64Char (b1 % 4 * 16 + b2 / 16 % 16),
      b64Char (b2 % 16 * 4)] ++ "="
  | b1 :: b2 :: b3 :: rest =>
    String.mk [b64Char (b1 / 4 % 64), b64Char (b1 % 4 * 16 + b2 / 16 % 16),
      b64Char (b2 % 16 * 4 + b3 / 64 % 4), b64Char (b3 % 64)] ++ base64Encode rest

/-- src/prompts.js: the template literal, with the brand phrase list joined
by ", " as in `brandPhrases.join(", ")`. -/
def productDescriptionPrompt (brandPhrases : List String)
    (title vendor category ptype tags : String) : String :=
  "\n  You are a marketing AI. Write a compelling product description.\n\n  Title: "
    ++ title
    ++ "\n  Vendor: " ++ vendor
    ++ "\n  Category: " ++ category
    ++ "\n  Type: " ++ ptype
    ++ "\n  Tags: " ++ tags
    ++ "\n  Brand phrases: " ++ String.intercalate ", " brandPhrases
    ++ "\n\n  Don't send back a title, just send a description.\n\n  Keep it professional, engaging, and under 150 words.\n  "

/-- generator.js lines 37-72: build the content of the user message.
`fsExists` embeds fs.existsSync, `fsRead` embeds fs.readFileSync with
`none` for the thrown-error branch caught at line 68.  The truthiness
guard `imageUrl && ...` becomes the explicit non-emptiness test. -/
def buildMessages (fsExists : String → Bool) (fsRead : String → Option (List Nat))
    (brandPhrases : List String) (row : Row) : List ContentPart :=
  let prompt := productDescriptionPrompt brandPhrases
    row.title row.vendor row.category row.ptype row.tags
  let imageUrl := row.imageSrc
  if (imageUrl != "") && jsStartsWith imageUrl "http" then
    [ContentPart.text prompt, ContentPart.image_url imageUrl]
  else if (imageUrl != "") && fsExists imageUrl then
    match fsRead imageUrl with
    | some bytes =>
      [ContentPart.text prompt,
       ContentPart.image_url ("data:image/jpeg;base64," ++ base64Encode bytes)]
    | none => [ContentPart.text prompt]
  else
    [ContentPart.text prompt]

/-- generator.js lines 19-30: invoke the endpoint and trim the returned
content.  `api` is the oracle for one chat.completions.create call. -/
def callOpenAI (api : List ContentPart → Except String APIResponse)
    (messages : List ContentPart) : Except String GenResult :=
  match api messages with
  | Except.ok resp =>
    Except.ok ⟨resp.content.trim, resp.prompt_tokens, resp.completion_tokens⟩
  | Except.error e => Except.error e

/-- generator.js lines 37-85: build the messages once, then call the
endpoint through pRetry with retries := 5.  The endpoint oracle takes the
attempt number first, so different attempts may behave differently.
Returns the settled result and the number of endpoint invocations. -/
def generateDescription (api : Nat → List ContentPart → Except String APIResponse)
    (fsExists : String → Bool) (fsRead : String → Option (List Nat))
    (brandPhrases : List String) (row : Row) : Except String GenResult × Nat :=
  let messages := buildMessages fsExists fsRead brandPhrases row
  pRetry (fun k => callOpenAI (api k) messages) 5

/-- State of the p-limit pool at part_000 lines 59-66: rows whose unit has
not started, rows whose unit is in flight, rows whose unit has settled. -/
structure SchedState where
  queued : List Row
  active : List Row
  done : List Row
deriving DecidableEq, Repr

/-- Small-step semantics of the p-limit pool: a queued unit may start only
while fewer than `limit` units are in flight (p-limit starts a task at
submission when under the limit, otherwise when an earlier task settles),
and any in-flight unit may settle.  Any real interleaving of the source is
one of these step sequences. -/
inductive SchedStep (limit : Nat) : SchedState → SchedState → Prop
  | start (r : Row) (rest : List Row) (s : SchedState)
      (hlt : s.active.length < limit) (hq : s.queued = r :: rest) :
      SchedStep limit s ⟨rest, r :: s.active, s.done⟩
  | finish (r : Row) (s : SchedState) (hmem : r ∈ s.active) :
      SchedStep limit s ⟨s.queued, s.active.erase r, r :: s.done⟩

/-- Initial scheduler state: every input row queued in submission order
(part_000 line 65 maps `inputRows` to tasks in order). -/
def initState (rows : List Row) : SchedState :=
  ⟨rows, [], []⟩

/-- States the pool can reach from the start of a run over `rows`. -/
def Reachable (limit : Nat) (rows : List Row) (s : SchedState) : Prop :=
  Relation.ReflTransGen (SchedStep limit) (initState rows) s

theorem buildIndex_concat (rows : List Row) (a : Row) (h : String) :
    buildIndex (rows ++ [a]) h = if h = a.handle then some a else buildIndex rows h := by
  unfold buildIndex
  rw [List.foldl_append]
  rfl

theorem buildIndex_eq_getLast (rows : List Row) (h : String) :
    buildIndex rows h = (rows.filter (fun r => r.handle == h)).getLast? := by
  induction rows using List.reverseRecOn with
  | nil => rfl
  | append_singleton l a ih =>
    rw [buildIndex_concat, List.filter_append]
    by_cases hc : h = a.handle
    · simp [hc, List.getLast?_concat]
    · have hb : (a.handle == h) = false := by
        simp [beq_eq_false_iff_ne]
        exact fun he => hc he.symm
      simp [hc, hb, ih]

theorem mem_handle_of_buildIndex (rows : List Row) (h : String) (e : Row)
    (he : buildIndex rows h = some e) : e ∈ rows ∧ e.handle = h := by
  rw [buildIndex_eq_getLast] at he
  have hmem := List.mem_of_mem_getLast? he
  rw [List.mem_filter] at hmem
  exact ⟨hmem.1, by simpa using hmem.2⟩

theorem buildIndex_isSome_of_mem (rows : List Row) (e : Row) (hmem : e ∈ rows) :
    ∃ e', buildIndex rows e.handle = some e' := by
  rw [buildIndex_eq_getLast]
  have hne : rows.filter (fun r => r.handle == e.handle) ≠ [] := by
    intro hnil
    rw [List.filter_eq_nil_iff] at hnil
    exact hnil e hmem (by simp)
  exact Option.isSome_iff_exists.mp (List.getLast?_isSome.mpr hne)

theorem buildIndex_eq_none (rows : List Row) (h : String)
    (hall : ∀ e ∈ rows, e.handle ≠ h) : buildIndex rows h = none := by
  rw [buildIndex_eq_getLast]
  have : rows.filter (fun r => r.handle == h) = [] := by
    rw [List.filter_eq_nil_iff]
    intro a ha
    simpa using hall a ha
  rw [this]
  rfl

theorem isDone_iff (idx : String → Option Row) (h : String) :
    isDone idx h = true ↔ ∃ e, idx h = some e ∧ e.desc ≠ "" := by
  unfold isDone
  cases hidx : idx h with
  | none => simp
  | some e => simp [bne_iff_ne]

theorem processRow_written (gen : Row → Except String GenResult)
    (idx : String → Option Row) (r : Row) :
    (processRow gen idx r).written =
      if isDone idx r.handle then [] else [setDesc r (outDesc (gen r))] := by
  unfold processRow
  cases hD : isDone idx r.handle <;> cases hg : gen r <;> simp [outDesc, hg]

theorem processRow_genCalls (gen : Row → Except String GenResult)
    (idx : String → Option Row) (r : Row) :
    (processRow gen idx r).genCalls = if isDone idx r.handle then 0 else 1 := by
  unfold processRow
  cases hD : isDone idx r.handle <;> cases hg : gen r <;> simp [hg]

theorem runNew_all_done (gen : Row → Except String GenResult)
    (idx : String → Option Row) (rows : List Row)
    (hall : ∀ r ∈ rows, isDone idx r.handle = true) :
    runNew gen idx rows = ⟨[], 0, 0, 0⟩ := by
  induction rows with
  | nil => rfl
  | cons a rs ih =>
    have h1 : isDone idx a.handle = true := hall a (by simp)
    have h2 := ih (fun x hx => hall x (by simp [hx]))
    simp [runNew, h2, processRow, h1]

theorem runNew_mem_of (gen : Row → Except String GenResult)
    (idx : String → Option Row) (rows : List Row) (r : Row) (hmem : r ∈ rows)
    (hD : isDone idx r.handle = false) :
    setDesc r (outDesc (gen r)) ∈ (runNew gen idx rows).written := by
  induction rows with
  | nil => cases hmem
  | cons a rs ih =>
    simp only [runNew, List.mem_append]
    rcases List.mem_cons.mp hmem with h | h
    · subst h
      left
      rw [processRow_written, hD]
      simp
    · right
      exact ih h

theorem runNew_mem_inv (gen : Row → Except String GenResult)
    (idx : String → Option Row) (rows : List Row) (w : Row)
    (hw : w ∈ (runNew gen idx rows).written) :
    ∃ r, r ∈ rows ∧ isDone idx r.handle = false ∧ w = setDesc r (outDesc (gen r)) := by
  induction rows with
  | nil => simp [runNew] at hw
  | cons a rs ih =>
    simp only [runNew, List.mem_append] at hw
    rcases hw with hw | hw
    · rw [processRow_written] at hw
      by_cases hD : isDone idx a.handle = true
      · simp [hD] at hw
      · have hD' : isDone idx a.handle = false := by simpa using hD
        rw [hD'] at hw
        simp at hw
        exact ⟨a, by simp, hD', hw⟩
    · obtain ⟨r, h1, h2, h3⟩ := ih hw
      exact ⟨r, by simp [h1], h2, h3⟩

theorem runNew_length_all_new (gen : Row → Except String GenResult)
    (idx : String → Option Row) (rows : List Row)
    (hall : ∀ r ∈ rows, isDone idx r.handle = false) :
    (runNew gen idx rows).written.length = rows.length := by
  induction rows with
  | nil => rfl
  | cons a rs ih =>
    have h1 : isDone idx a.handle = false := hall a (by simp)
    have h2 := ih (fun x hx => hall x (by simp [hx]))
    simp only [runNew, List.length_append, List.length_cons]
    rw [processRow_written, h1, h2]
    simp [Nat.add_comm]

theorem processCSV_written (gen : Row → Except String GenResult)
    (inputRows existingRows : List Row) :
    (processCSV gen inputRows existingRows).written
      = existingRows ++ (runNew gen (buildIndex existingRows) inputRows).written := rfl

theorem processCSV_genCalls (gen : Row → Except String GenResult)
    (inputRows existingRows : List Row) :
    (processCSV gen inputRows existingRows).genCalls
      = (runNew gen (buildIndex existingRows) inputRows).genCalls := rfl

theorem setDesc_handle (r : Row) (d : String) : (setDesc r d).handle = r.handle := rfl

/-- C10: when the prior-output dataset has several records with the same
Handle, the resume index maps that Handle to the last such record in file
order, and the skip decision for that Handle is decided solely by the
description field of that last occurrence. -/
theorem resume_index_last_wins (rows : List Row) (h : String) :
    buildIndex rows h = (rows.filter (fun r => r.handle == h)).getLast? ∧
    isDone (buildIndex rows) h =
      (match (rows.filter (fun r => r.handle == h)).getLast? with
       | some e => e.desc != ""
       | none => false) := by
  refine ⟨buildIndex_eq_getLast rows h, ?_⟩
  unfold isDone
  rw [buildIndex_eq_getLast]

/-- C3: a unit of work invokes the generation client zero times exactly when
the Handle of its row is present in the resume index with a non-empty
Product Description (and in that case it also writes nothing), while a
present-but-empty entry is reprocessed with one generation call. -/
theorem skip_policy (gen : Row → Except String GenResult)
    (existingRows : List Row) (r : Row) :
    (((processRow gen (buildIndex existingRows) r).genCalls = 0 ∧
      (processRow gen (buildIndex existingRows) r).written = []) ↔
      ∃ e, buildIndex existingRows r.handle = some e ∧ e.desc ≠ "") ∧
    (∀ e, buildIndex existingRows r.handle = some e → e.desc = "" →
      (processRow gen (buildIndex existingRows) r).genCalls = 1) := by
  constructor
  · rw [processRow_genCalls, processRow_written,
      ← isDone_iff (buildIndex existingRows) r.handle]
    cases hD : isDone (buildIndex existingRows) r.handle <;> simp [hD]
  · intro e he hdesc
    rw [processRow_genCalls]
    have hD : isDone (buildIndex existingRows) r.handle = false := by
      unfold isDone
      rw [he]
      simp [hdesc]
    rw [hD]
    rfl

/-- Witness for C3 at a concrete resume source: a row whose Handle maps to a
record with the non-empty description "d" is skipped. -/
theorem skip_policy_witness :
    (processRow (fun _ => Except.error "x")
      (buildIndex [setDesc (mkRow "h") "d"]) (mkRow "h")).genCalls = 0 ∧
    (processRow (fun _ => Except.error "x")
      (buildIndex [setDesc (mkRow "h") "d"]) (mkRow "h")).written = [] :=
  (skip_policy (fun _ => Except.error "x") [setDesc (mkRow "h") "d"] (mkRow "h")).1.mpr
    ⟨setDesc (mkRow "h") "d", rfl, by decide⟩

/-- C2 counterexample: with a generation client whose trimmed description is
empty, the first run writes an empty-description row, so the second run over
the first run output reprocesses it: one generation call instead of zero and
two output rows instead of one. -/
theorem resume_idempotence_counterexample :
    (processCSV (fun _ => Except.ok ⟨"", 0, 0⟩) [mkRow "h"]
      (processCSV (fun _ => Except.ok ⟨"", 0, 0⟩) [mkRow "h"] []).written).genCalls = 1 ∧
    (processCSV (fun _ => Except.ok ⟨"", 0, 0⟩) [mkRow "h"]
      (processCSV (fun _ => Except.ok ⟨"", 0, 0⟩) [mkRow "h"] []).written).written.length = 2 ∧
    (processCSV (fun _ => Except.ok ⟨"", 0, 0⟩) [mkRow "h"] []).written.length = 1 :=
  ⟨rfl, rfl, rfl⟩

/-- C2 as amended: provided every row of the first run output carries a
non-empty description, a second run over the same input with the first run
output as resume source makes zero generation calls and writes exactly the
first run output. -/
theorem resume_idempotence (gen : Row → Except String GenResult)
    (inputRows existingRows : List Row)
    (hne : ∀ w ∈ (processCSV gen inputRows existingRows).written, w.desc ≠ "") :
    (processCSV gen inputRows
      (processCSV gen inputRows existingRows).written).genCalls = 0 ∧
    (processCSV gen inputRows
      (processCSV gen inputRows existingRows).written).written
      = (processCSV gen inputRows existingRows).written := by
  have hdone : ∀ r ∈ inputRows,
      isDone (buildIndex (processCSV gen inputRows existingRows).written) r.handle
        = true := by
    intro r hr
    have hocc : ∃ e ∈ (processCSV gen inputRows existingRows).written,
        e.handle = r.handle := by
      by_cases hD : isDone (buildIndex existingRows) r.handle = true
      · obtain ⟨e, he, _⟩ := (isDone_iff _ _).mp hD
        obtain ⟨hmem, hh⟩ := mem_handle_of_buildIndex _ _ _ he
        refine ⟨e, ?_, hh⟩
        rw [processCSV_written, List.mem_append]
        exact Or.inl hmem
      · have hD' : isDone (buildIndex existingRows) r.handle = false := by
          simpa using hD
        refine ⟨setDesc r (outDesc (gen r)), ?_, setDesc_handle r _⟩
        rw [processCSV_written, List.mem_append]
        exact Or.inr (runNew_mem_of gen (buildIndex existingRows) inputRows r hr hD')
    obtain ⟨e, heW, hh⟩ := hocc
    obtain ⟨e', he'⟩ := buildIndex_isSome_of_mem _ e heW
    rw [hh] at he'
    have he'W : e' ∈ (processCSV gen inputRows existingRows).written :=
      (mem_handle_of_buildIndex _ _ _ he').1
    exact (isDone_iff _ _).mpr ⟨e', he', hne e' he'W⟩
  have hrun := runNew_all_done gen
    (buildIndex (processCSV gen inputRows existingRows).written) inputRows hdone
  constructor
  · rw [processCSV_genCalls, hrun]
  · rw [processCSV_written, hrun]
    simp

/-- Witness for C2 as amended at a concrete client that always returns the
non-empty description "desc". -/
theorem resume_idempotence_witness :
    (processCSV (fun _ => Except.ok ⟨"desc", 1, 2⟩) [mkRow "a"]
      (processCSV (fun _ => Except.ok ⟨"desc", 1, 2⟩) [mkRow "a"] []).written).genCalls = 0 ∧
    (processCSV (fun _ => Except.ok ⟨"desc", 1, 2⟩) [mkRow "a"]
      (processCSV (fun _ => Except.ok ⟨"desc", 1, 2⟩) [mkRow "a"] []).written).written
      = (processCSV (fun _ => Except.ok ⟨"desc", 1, 2⟩) [mkRow "a"] []).written :=
  resume_idempotence (fun _ => Except.ok ⟨"desc", 1, 2⟩) [mkRow "a"] [] (by decide)

theorem pRetryGo_all_fail (op : Nat → Except String GenResult) (errs : Nat → String)
    (hop : ∀ k, op k = Except.error (errs k)) :
    ∀ n k, pRetryGo op n k = (Except.error (errs (k + n)), k + n) := by
  intro n
  induction n with
  | zero =>
    intro k
    simp [pRetryGo, hop k]
  | succ m ih =>
    intro k
    have h1 : pRetryGo op (m + 1) k = pRetryGo op m (k + 1) := by
      rw [pRetryGo, hop k]
    rw [h1, ih (k + 1)]
    have h2 : k + 1 + m = k + (m + 1) := by omega
    rw [h2]

/-- C1 counterexample: against an endpoint that fails on every attempt, the
retry wrapper of generateDescription invokes the underlying call 6 times,
not 5 (p-retry is configured with retries := 5, i.e. 5 retries after the
first attempt). -/
theorem retry_bound_counterexample :
    (generateDescription (fun _ _ => Except.error "boom") (fun _ => false)
      (fun _ => none) [] (mkRow "h")).2 = 6 ∧
    ¬ (generateDescription (fun _ _ => Except.error "boom") (fun _ => false)
      (fun _ => none) [] (mkRow "h")).2 = 5 :=
  ⟨rfl, by decide⟩

/-- C1 as amended: a generation call whose underlying API invocation fails on
every attempt invokes the underlying call exactly 6 times (1 initial attempt
plus 5 retries), and the error of the final attempt is returned unchanged to
the caller rather than aborting the run. -/
theorem retry_exhaustion (api : Nat → List ContentPart → Except String APIResponse)
    (fsExists : String → Bool) (fsRead : String → Option (List Nat))
    (brandPhrases : List String) (row : Row) (errs : Nat → String)
    (hfail : ∀ k, api k (buildMessages fsExists fsRead brandPhrases row)
      = Except.error (errs k)) :
    generateDescription api fsExists fsRead brandPhrases row
      = (Except.error (errs 6), 6) := by
  unfold generateDescription pRetry
  have hop : ∀ k, callOpenAI (api k) (buildMessages fsExists fsRead brandPhrases row)
      = Except.error (errs k) := by
    intro k
    unfold callOpenAI
    rw [hfail k]
  rw [pRetryGo_all_fail _ errs hop 5 1]

/-- Witness for C1 as amended at a concrete always-failing endpoint. -/
theorem retry_exhaustion_witness :
    generateDescription (fun _ _ => Except.error "boom") (fun _ => false)
      (fun _ => none) [] (mkRow "h") = (Except.error "boom", 6) :=
  retry_exhaustion (fun _ _ => Except.error "boom") (fun _ => false)
    (fun _ => none) [] (mkRow "h") (fun _ => "boom") (fun _ => rfl)

/-- C4 counterexample: a resume source holding a present-but-empty record is
re-emitted verbatim (part_000 lines 54-56), so with an empty input dataset
the run writes a record whose description field is empty: no generation
call happened, no generated description, and no ERROR marker. -/
theorem output_invariant_counterexample :
    (processCSV (fun _ => Except.error "x") [] [mkRow "h"]).written = [mkRow "h"] ∧
    (mkRow "h").desc = "" ∧
    (processCSV (fun _ => Except.error "x") [] [mkRow "h"]).genCalls = 0 ∧
    (jsStartsWith (mkRow "h").desc "ERROR: ") = false :=
  ⟨rfl, rfl, rfl, rfl⟩

/-- C4 as amended: every row written during a run either is a carried-over
prior-output row re-emitted verbatim (which may have an empty description) or
arises from processing an input record, in which case it carries the
generated description on success and the explicit marker
"ERROR: " ++ reason on failure; in particular a permanently failed record is
still written. -/
theorem output_marker (gen : Row → Except String GenResult)
    (inputRows existingRows : List Row) :
    (∀ w ∈ (processCSV gen inputRows existingRows).written,
      w ∈ existingRows ∨
      ∃ r ∈ inputRows,
        (∃ g, gen r = Except.ok g ∧ w = setDesc r g.description) ∨
        (∃ m, gen r = Except.error m ∧ w = setDesc r ("ERROR: " ++ m))) ∧
    (∀ r ∈ inputRows, isDone (buildIndex existingRows) r.handle = false →
      ∀ m, gen r = Except.error m →
        setDesc r ("ERROR: " ++ m) ∈ (processCSV gen inputRows existingRows).written) := by
  constructor
  · intro w hw
    rw [processCSV_written, List.mem_append] at hw
    rcases hw with hw | hw
    · exact Or.inl hw
    · obtain ⟨r, hr, _, hshape⟩ := runNew_mem_inv _ _ _ _ hw
      refine Or.inr ⟨r, hr, ?_⟩
      cases hg : gen r with
      | ok g =>
        left
        refine ⟨g, rfl, ?_⟩
        rw [hshape, hg]
        rfl
      | error m =>
        right
        refine ⟨m, rfl, ?_⟩
        rw [hshape, hg]
        rfl
  · intro r hr hD m hm
    rw [processCSV_written, List.mem_append]
    right
    have hmem := runNew_mem_of gen (buildIndex existingRows) inputRows r hr hD
    rw [hm] at hmem
    exact hmem

/-- Witness for C4 as amended: a permanently failing record is written with
the marker "ERROR: x". -/
theorem output_marker_witness :
    setDesc (mkRow "a") ("ERROR: " ++ "x") ∈
      (processCSV (fun _ => Except.error "x") [mkRow "a"] []).written :=
  (output_marker (fun _ => Except.error "x") [mkRow "a"] []).2 (mkRow "a")
    (by simp) rfl "x" rfl

/-- C5: when no input Handle occurs in the prior output, the run writes
exactly one row per input record after re-emitting every prior-output row,
so the output has N + M rows. -/
theorem row_completeness (gen : Row → Except String GenResult)
    (inputRows existingRows : List Row)
    (hdisj : ∀ r ∈ inputRows, ∀ e ∈ existingRows, r.handle ≠ e.handle) :
    (processCSV gen inputRows existingRows).written.length
      = inputRows.length + existingRows.length := by
  have hall : ∀ r ∈ inputRows, isDone (buildIndex existingRows) r.handle = false := by
    intro r hr
    have hnone : buildIndex existingRows r.handle = none :=
      buildIndex_eq_none existingRows r.handle
        (fun e he => fun hcontra => hdisj r hr e he hcontra.symm)
    unfold isDone
    rw [hnone]
  rw [processCSV_written, List.length_append,
    runNew_length_all_new gen (buildIndex existingRows) inputRows hall]
  omega

/-- Witness for C5 with one fresh input record and one disjoint prior
record: two output rows. -/
theorem row_completeness_witness :
    (processCSV (fun _ => Except.error "x") [mkRow "a"]
      [setDesc (mkRow "b") "d"]).written.length = 1 + 1 :=
  row_completeness (fun _ => Except.error "x") [mkRow "a"]
    [setDesc (mkRow "b") "d"] (by decide)

/-- C6: the reported cost is (promptTotal/1e6)*inputRate +
(completionTotal/1e6)*outputRate with the pricing-table rates of the model,
and at promptTotal = 2000000, completionTotal = 1000000 with the
gpt-4o-mini rates 0.150 and 0.600 it equals 0.900.  The arithmetic of
part_000 lines 105-107 is embedded exactly over the rationals. -/
theorem cost_computation :
    (∀ promptTotal completionTotal : Nat,
      reportCost "gpt-4o-mini" promptTotal completionTotal =
        some ((promptTotal : ℚ) / 1000000 * 0.150
          + (completionTotal : ℚ) / 1000000 * 0.600)) ∧
    reportCost "gpt-4o-mini" 2000000 1000000 = some 0.900 := by
  constructor
  · intro p c
    rfl
  · have h : MODEL_PRICING "gpt-4o-mini" = some (0.150, 0.600) := rfl
    rw [reportCost, h]
    norm_num

theorem startsWith_http_ne_empty (s : String) (h : jsStartsWith s "http" = true) :
    (s != "") = true := by
  rw [bne_iff_ne]
  intro he
  rw [he] at h
  exact absurd h (by decide)

/-- C7: the built request attaches the image by reference when Image Src
begins with "http", as inline base64 content when it is a readable local
path, and otherwise (absent value, non-existent path, or a failing read) the
request is text-only; none of these cases fails the record, the unit always
proceeds to the generation call with the messages built here. -/
theorem image_resolution (fsExists : String → Bool) (fsRead : String → Option (List Nat))
    (brandPhrases : List String) (row : Row) :
    (jsStartsWith row.imageSrc "http" = true →
      buildMessages fsExists fsRead brandPhrases row =
        [ContentPart.text (productDescriptionPrompt brandPhrases row.title row.vendor
            row.category row.ptype row.tags),
         ContentPart.image_url row.imageSrc]) ∧
    (jsStartsWith row.imageSrc "http" = false → row.imageSrc ≠ "" →
      fsExists row.imageSrc = true →
      ∀ bytes, fsRead row.imageSrc = some bytes →
        buildMessages fsExists fsRead brandPhrases row =
          [ContentPart.text (productDescriptionPrompt brandPhrases row.title row.vendor
              row.category row.ptype row.tags),
           ContentPart.image_url ("data:image/jpeg;base64," ++ base64Encode bytes)]) ∧
    ((row.imageSrc = "" ∨
      (jsStartsWith row.imageSrc "http" = false ∧ fsExists row.imageSrc = false) ∨
      (jsStartsWith row.imageSrc "http" = false ∧ fsRead row.imageSrc = none)) →
      buildMessages fsExists fsRead brandPhrases row =
        [ContentPart.text (productDescriptionPrompt brandPhrases row.title row.vendor
            row.category row.ptype row.tags)]) := by
  refine ⟨?_, ?_, ?_⟩
  · intro h1
    have h2 := startsWith_http_ne_empty row.imageSrc h1
    simp [buildMessages, h1, h2]
  · intro h1 h2 h3 bytes h4
    have h2' : (row.imageSrc != "") = true := bne_iff_ne.mpr h2
    simp [buildMessages, h1, h2', h3, h4]
  · intro h
    rcases h with h | ⟨h1, h2⟩ | ⟨h1, h2⟩
    · simp [buildMessages, h]
    · simp [buildMessages, h1, h2]
    · by_cases hex : fsExists row.imageSrc = true
      · simp [buildMessages, h1, hex, h2]
      · have hex' : fsExists row.imageSrc = false := by simpa using hex
        simp [buildMessages, h1, hex']

/-- Witness for C7 on the remote branch: an Image Src beginning with "http"
is attached by reference. -/
theorem image_resolution_witness :
    buildMessages (fun _ => false) (fun _ => none) []
      ⟨"h", "", "", "", "", "", "http://x", "", []⟩ =
      [ContentPart.text (productDescriptionPrompt [] "" "" "" "" ""),
       ContentPart.image_url "http://x"] :=
  (image_resolution (fun _ => false) (fun _ => none) []
    ⟨"h", "", "", "", "", "", "http://x", "", []⟩).1 (by decide)

/-- C8: the dataset loader returns the ordered rows of an existing parseable
file and the empty sequence, not an error, for a missing path. -/
theorem loader_tolerates_absence (fs : String → Option (Except String (List Row)))
    (path : String) :
    (fs path = none → loadCsv fs path = Except.ok []) ∧
    (∀ rows, fs path = some (Except.ok rows) → loadCsv fs path = Except.ok rows) := by
  constructor
  · intro h
    unfold loadCsv
    rw [h]
  · intro rows h
    unfold loadCsv
    rw [h]

/-- Witness for C8: a missing path yields the empty row sequence. -/
theorem loader_tolerates_absence_witness :
    loadCsv (fun _ => none) "output.csv" = Except.ok [] :=
  (loader_tolerates_absence (fun _ => none) "output.csv").1 rfl

theorem schedStep_inv (limit : Nat) (s t : SchedState)
    (hstep : SchedStep limit s t) (hlen : s.active.length ≤ limit) :
    t.active.length ≤ limit ∧
      ((t.queued : Multiset Row) + (t.active : Multiset Row) + (t.done : Multiset Row)
        = (s.queued : Multiset Row) + (s.active : Multiset Row) + (s.done : Multiset Row)) := by
  cases hstep with
  | start r rest s hlt hq =>
    constructor
    · simpa using hlt
    · rw [hq]
      simp only [← Multiset.cons_coe, Multiset.cons_add, Multiset.add_cons]
  | finish r s hmem =>
    constructor
    · have h1 := List.length_erase_of_mem hmem
      simp only [h1]
      omega
    · have hp : (s.active : Multiset Row)
          = ((r :: s.active.erase r : List Row) : Multiset Row) :=
        Multiset.coe_eq_coe.mpr (List.perm_cons_erase hmem)
      rw [hp]
      simp only [← Multiset.cons_coe, Multiset.cons_add, Multiset.add_cons]

/-- C9: in every state the p-limit pool can reach over any input dataset, at
most 2 units are in flight (hence at most 2 generation calls), and when the
pool has drained, the settled units are exactly the input records, each
processed once. -/
theorem concurrency_ceiling (rows : List Row) (s : SchedState)
    (hreach : Reachable 2 rows s) :
    s.active.length ≤ 2 ∧ (s.queued = [] → s.active = [] → s.done.Perm rows) := by
  have hreach' : Relation.ReflTransGen (SchedStep 2) (initState rows) s := hreach
  clear hreach
  have hinv : s.active.length ≤ 2 ∧
      ((s.queued : Multiset Row) + (s.active : Multiset Row) + (s.done : Multiset Row)
        = (rows : Multiset Row)) := by
    induction hreach' with
    | refl => exact ⟨by simp [initState], by simp [initState]⟩
    | tail hsteps hstep ih =>
      obtain ⟨ih1, ih2⟩ := ih
      have h := schedStep_inv 2 _ _ hstep ih1
      exact ⟨h.1, h.2.trans ih2⟩
  refine ⟨hinv.1, fun hq ha => ?_⟩
  have h2 := hinv.2
  rw [hq, ha] at h2
  simpa using h2

/-- Witness for C9: a complete interleaving over three input rows at limit
2 — start, start, finish, start, finish, finish — stays within the ceiling
and settles every row once. -/
theorem concurrency_ceiling_witness :
    (SchedState.mk ([] : List Row) []
      [mkRow "c", mkRow "b", mkRow "a"]).active.length ≤ 2 ∧
    List.Perm [mkRow "c", mkRow "b", mkRow "a"] [mkRow "a", mkRow "b", mkRow "c"] := by
  have s1 : SchedStep 2 (initState [mkRow "a", mkRow "b", mkRow "c"])
      ⟨[mkRow "b", mkRow "c"], [mkRow "a"], []⟩ :=
    SchedStep.start (mkRow "a") [mkRow "b", mkRow "c"] _ (by decide) rfl
  have s2 : SchedStep 2 ⟨[mkRow "b", mkRow "c"], [mkRow "a"], []⟩
      ⟨[mkRow "c"], [mkRow "b", mkRow "a"], []⟩ :=
    SchedStep.start (mkRow "b") [mkRow "c"] _ (by decide) rfl
  have s3 : SchedStep 2 ⟨[mkRow "c"], [mkRow "b", mkRow "a"], []⟩
      ⟨[mkRow "c"], [mkRow "b"], [mkRow "a"]⟩ :=
    SchedStep.finish (mkRow "a") ⟨[mkRow "c"], [mkRow "b", mkRow "a"], []⟩ (by decide)
  have s4 : SchedStep 2 ⟨[mkRow "c"], [mkRow "b"], [mkRow "a"]⟩
      ⟨[], [mkRow "c", mkRow "b"], [mkRow "a"]⟩ :=
    SchedStep.start (mkRow "c") [] _ (by decide) rfl
  have s5 : SchedStep 2 ⟨[], [mkRow "c", mkRow "b"], [mkRow "a"]⟩
      ⟨[], [mkRow "c"], [mkRow "b", mkRow "a"]⟩ :=
    SchedStep.finish (mkRow "b") ⟨[], [mkRow "c", mkRow "b"], [mkRow "a"]⟩ (by decide)
  have s6 : SchedStep 2 ⟨[], [mkRow "c"], [mkRow "b", mkRow "a"]⟩
      ⟨[], [], [mkRow "c", mkRow "b", mkRow "a"]⟩ :=
    SchedStep.finish (mkRow "c") ⟨[], [mkRow "c"], [mkRow "b", mkRow "a"]⟩ (by decide)
  have hreach : Reachable 2 [mkRow "a", mkRow "b", mkRow "c"]
      ⟨[], [], [mkRow "c", mkRow "b", mkRow "a"]⟩ :=
    Relation.ReflTransGen.tail (Relation.ReflTransGen.tail (Relation.ReflTransGen.tail
      (Relation.ReflTransGen.tail (Relation.ReflTransGen.tail
        (Relation.ReflTransGen.single s1) s2) s3) s4) s5) s6
  have h := concurrency_ceiling [mkRow "a", mkRow "b", mkRow "c"] _ hreach
  exact ⟨h.1, h.2 rfl rfl⟩

end PDGen
